import Mathlib

/-!
# Verification of `ccrun` (minimal container runtime) against its specification

A shallow embedding of the Go sources of `alafilearnstocode/ccrun`:
the registry client (`internal/registry/registry.go`), the cgroup
controller (`internal/cgroup/cgroup.go`) and the namespace launcher
(`internal/ns/ns.go`), together with theorems settling the frozen claims.

Go strings are modelled as `List Char` (`Str`) where structural reasoning
is needed (paths, reference parsing), and as Lean `String` where only
message assembly matters (HTTP flows, cgroup file contents).  Filesystem
state is an association list from absolute paths (lists of components) to
nodes; machine-level effects (HTTP, syscalls) are modelled as explicit
functions or traces.
-/

namespace CCRun

/-- Go strings, modelled as lists of characters (bytes are ASCII here). -/
abbrev Str := List Char

/-- Go `strings.Contains(s, c)` for a single-character needle. -/
def containsChar (s : Str) (c : Char) : Bool := s.contains c

/-- Go `strings.LastIndexByte(s, c)`: index of the last occurrence, or -1. -/
def lastIndexChar (s : Str) (c : Char) : Int :=
  match s with
  | [] => -1
  | a :: rest =>
    let r := lastIndexChar rest c
    if r ≥ 0 then r + 1
    else if a = c then 0 else -1

/-- Take the first `i` characters (`s[:i]` in Go, for `0 ≤ i ≤ len s`). -/
def takeStr (s : Str) (i : Int) : Str := s.take i.toNat

/-- Drop the first `i` characters (`s[i:]` in Go). -/
def dropStr (s : Str) (i : Int) : Str := s.drop i.toNat

/-- An image reference: registry host, repository path, tag
(`registry.go`, type `ImageRef`). -/
structure ImageRef where
  registry : Str
  repo : Str
  tag : Str
  deriving DecidableEq, Repr

/-- The function `ParseImageRef` from `internal/registry/registry.go`.  The Go function
returns `(ImageRef, error)`; the error is modelled as `Option Str` and the
source always returns `nil`, i.e. `none`. -/
def ParseImageRef (s : Str) : ImageRef × Option Str :=
  let i := lastIndexChar s ':'
  let name := if i > 0 ∧ ¬ containsChar (dropStr s (i+1)) '/' then takeStr s i else s
  let tag := if i > 0 ∧ ¬ containsChar (dropStr s (i+1)) '/' then dropStr s (i+1)
             else "latest".toList
  let name' := if ¬ containsChar name '/' then "library/".toList ++ name else name
  (⟨"registry-1.docker.io".toList, name', tag⟩, none)

/-- The tag as the claim words it: the portion after the last `:` unless
there is no `:` or that portion contains a `/`, in which case `latest`. -/
def specTagClaim (s : Str) : Str :=
  let i := lastIndexChar s ':'
  if i ≥ 0 ∧ ¬ containsChar (dropStr s (i+1)) '/' then dropStr s (i+1)
  else "latest".toList

/-- The tag as the amended claim words it: the portion after the last `:`
unless there is no `:`, the last `:` is the first character, or that
portion contains a `/`, in which case `latest`. -/
def specTagAmended (s : Str) : Str :=
  let i := lastIndexChar s ':'
  if i > 0 ∧ ¬ containsChar (dropStr s (i+1)) '/' then dropStr s (i+1)
  else "latest".toList

/-- The name before `library/`-prefixing, per the amended claim. -/
def specRawName (s : Str) : Str :=
  let i := lastIndexChar s ':'
  if i > 0 ∧ ¬ containsChar (dropStr s (i+1)) '/' then takeStr s i
  else s

/-- The repository path per the claim: the name, prefixed with `library/`
exactly when it contains no `/`. -/
def specRepo (s : Str) : Str :=
  let name := specRawName s
  if ¬ containsChar name '/' then "library/".toList ++ name else name

/-! ## Paths and filesystem state

Absolute paths are lists of components (each a `Str`); the list `[]` is
the filesystem root `/`.  `splitOnChar` models `strings.Split(s, "/")`;
`cleanComponents` is the component-level content of Go's `path.Clean` on
a rooted path: empty and `.` elements vanish, `..` pops the previous
element and is dropped at the root. -/

/-- Split a string on a separator character (`strings.Split`). -/
def splitOnChar (s : Str) (c : Char) : List Str :=
  match s with
  | [] => [[]]
  | a :: rest =>
    match splitOnChar rest c with
    | [] => [[a]]
    | g :: gs => if a = c then [] :: g :: gs else (a :: g) :: gs

/-- One step of lexical path cleaning. -/
def cleanStep (acc : List Str) (comp : Str) : List Str :=
  if comp = [] ∨ comp = ".".toList then acc
  else if comp = "..".toList then acc.dropLast
  else acc ++ [comp]

/-- Component-level `path.Clean` of a rooted path: the components of
`path.Clean("/" + s)[1:]` for `s` the `/`-joined input components. -/
def cleanComponents (comps : List Str) : List Str :=
  comps.foldl cleanStep []

/-- The sanitised entry name of `applyTarEntry`
(`registry.go`: `name := path.Clean("/" + hdr.Name)[1:]`), as components. -/
def sanitize (name : Str) : List Str :=
  cleanComponents (splitOnChar name '/')

/-- Go `filepath.Join(root, s)` for an absolute `root` given as components:
the join is cleaned, so `..` components of `s` pop into `root`. -/
def joinPath (root : List Str) (s : Str) : List Str :=
  cleanComponents (root ++ splitOnChar s '/')

/-- Go `path.Base` of a cleaned name given as components (`"."` when empty). -/
def baseOf (comps : List Str) : Str :=
  comps.getLast?.getD ".".toList

/-- A filesystem node.  File contents and modes are irrelevant to the
claims and not tracked; a symlink stores its target verbatim
(`os.Symlink(hdr.Linkname, full)` stores the raw link name); a hardlink
records the physical path of its link source. -/
inductive Node where
  | dir : Node
  | file : Node
  | symlink (target : Str) : Node
  | hardlink (source : List Str) : Node
  deriving DecidableEq, Repr

/-- Filesystem state: a finite map from absolute paths to nodes,
as an association list. -/
abbrev FS := List (List Str × Node)

/-- Look up the node at a path. -/
def fsLookup (fs : FS) (p : List Str) : Option Node :=
  match fs with
  | [] => none
  | (q, n) :: rest => if q = p then some n else fsLookup rest p

/-- Remove any binding at exactly `p`. -/
def fsErase (fs : FS) (p : List Str) : FS :=
  fs.filter (fun e => decide ¬ (e.1 = p))

/-- Bind `p` to `n` (replacing any previous binding). -/
def fsSet (fs : FS) (p : List Str) (n : Node) : FS :=
  fsErase fs p ++ [(p, n)]

/-- Go `os.RemoveAll(p)`: delete `p` and everything under it. -/
def fsRemoveTree (fs : FS) (p : List Str) : FS :=
  fs.filter (fun e => decide ¬ (p <+: e.1))

/-- Kernel-style path resolution: walk the components of `rest` from the
directory `cur`, following symlinks (splicing relative targets at `cur`
and absolute targets at the root) and stepping over `.`, empty and `..`
components.  Fuel bounds the walk; on exhaustion the remaining
components are appended lexically (the kernel would return `ELOOP`;
every concrete input below uses ample fuel). -/
def resolveFrom (fs : FS) : Nat → List Str → List Str → List Str
  | 0, cur, rest => cur ++ rest
  | Nat.succ fuel, cur, rest =>
    match rest with
    | [] => cur
    | c :: rs =>
      if c = [] ∨ c = ".".toList then resolveFrom fs fuel cur rs
      else if c = "..".toList then resolveFrom fs fuel cur.dropLast rs
      else
        match fsLookup fs (cur ++ [c]) with
        | some (Node.symlink t) =>
          if t.head? = some '/' then resolveFrom fs fuel [] (splitOnChar t '/' ++ rs)
          else resolveFrom fs fuel cur (splitOnChar t '/' ++ rs)
        | _ => resolveFrom fs fuel (cur ++ [c]) rs

/-- Resolve the parent directories of `p` but not its final component
(the behaviour of `symlink`, `link` at the new path, and `RemoveAll`). -/
def resolveNoFollowLast (fuel : Nat) (fs : FS) (p : List Str) : List Str :=
  match p.getLast? with
  | none => []
  | some c => resolveFrom fs fuel [] p.dropLast ++ [c]

/-- Go `os.MkdirAll`: create every missing ancestor of the resolved
directory path as a directory. -/
def mkdirAllModel (fuel : Nat) (fs : FS) (dirPath : List Str) : FS :=
  let rp := resolveFrom fs fuel [] dirPath
  (List.range rp.length).foldl
    (fun acc k =>
      let pre := rp.take (k+1)
      match fsLookup acc pre with
      | some _ => acc
      | none => acc ++ [(pre, Node.dir)]) fs

/-- Tar entry types (`archive/tar` type flags used by `applyTarEntry`). -/
inductive TarType where
  | dir | reg | regA | symlink | link | char | block | fifo | other
  deriving DecidableEq, Repr

/-- A tar header: entry name, type and link name
(body and mode are irrelevant to the claims). -/
structure TarHeader where
  name : Str
  typeflag : TarType
  linkname : Str := []
  deriving DecidableEq, Repr

/-- The `.wh.` whiteout marker. -/
def whMark : Str := ".wh.".toList

/-- The opaque-whiteout basename `.wh..wh..opq`. -/
def opqBase : Str := ".wh..wh..opq".toList

/-- Go `strings.TrimPrefix`. -/
def trimPre (pre s : Str) : Str :=
  if pre.isPrefixOf s then s.drop pre.length else s

/-- The link source computed for a hardlink entry
(`registry.go`: `target := filepath.Join(root, hdr.Linkname)` — the raw
link name, not the sanitised entry-name treatment). -/
def hardlinkSource (root : List Str) (linkname : Str) : List Str :=
  joinPath root linkname

/-- The function `applyTarEntry` from `internal/registry/registry.go` (lines 316-371),
as a transition on the filesystem model.  The entry name is sanitised
(`path.Clean("/"+Name)[1:]`), joined under `root`; a basename with the
`.wh.` marker removes the whiteout target (so the dead
`.wh..wh..opq` branch below is unreachable, as in the source, because
that basename also carries the `.wh.` marker); otherwise the entry is
dispatched on its type.  OS calls that fail in Go are modelled as
always succeeding. -/
def applyTarEntry (fuel : Nat) (root : List Str) (fs : FS) (hdr : TarHeader) : FS :=
  let name := sanitize hdr.name
  let full := root ++ name
  let base := baseOf name
  let dir := full.dropLast
  if whMark.isPrefixOf base then
    -- target := filepath.Join(root, path.Dir(name), strings.TrimPrefix(base, ".wh."))
    let target := cleanComponents (root ++ name.dropLast ++ [trimPre whMark base])
    fsRemoveTree fs (resolveNoFollowLast fuel fs target)
  else if base = opqBase then
    -- opaque directory: remove everything strictly under `dir` (dead branch)
    let rd := resolveFrom fs fuel [] dir
    fs.filter (fun e => decide ¬ (rd <+: e.1 ∧ rd ≠ e.1))
  else
    match hdr.typeflag with
    | TarType.dir => mkdirAllModel fuel fs full
    | TarType.reg =>
      let fs1 := mkdirAllModel fuel fs dir
      fsSet fs1 (resolveFrom fs1 fuel [] full) Node.file
    | TarType.regA =>
      let fs1 := mkdirAllModel fuel fs dir
      fsSet fs1 (resolveFrom fs1 fuel [] full) Node.file
    | TarType.symlink =>
      let fs1 := mkdirAllModel fuel fs dir
      let p := resolveNoFollowLast fuel fs1 full
      fsSet (fsRemoveTree fs1 p) p (Node.symlink hdr.linkname)
    | TarType.link =>
      let p := resolveNoFollowLast fuel fs full
      fsSet (fsRemoveTree fs p) p
        (Node.hardlink (resolveFrom fs fuel [] (hardlinkSource root hdr.linkname)))
    | _ => fs

/-- The tar-iteration loop of `fetchAndApplyLayer`: entries are applied
to the destination root in stream order. -/
def applyLayer (fuel : Nat) (root : List Str) (fs : FS) (entries : List TarHeader) : FS :=
  entries.foldl (applyTarEntry fuel root) fs

/-! ## Layer fetch and digest verification (`fetchAndApplyLayer`) -/

/-- The function `normalizeDigest` from `registry.go`: re-prefix a bare 64-hex digest
with `sha256:`. -/
def normalizeDigest (d : Str) : Str :=
  if "sha256:".toList.isPrefixOf d then d
  else if d.length = 64 then "sha256:".toList ++ d
  else d

/-- The function `fetchAndApplyLayer` from `registry.go` (lines 269-314), for the
successful-fetch path (HTTP 200).  The raw HTTP body is teed through a
SHA-256 hasher while the other fork is decompressed and iterated as tar;
both the hash function (Go: `crypto/sha256`, already hex-encoded here)
and the tar decoding (`entries` stands for the parse of `body`) are
abstracted.  The digest comparison happens only after the iteration loop
finishes, and the filesystem is not rolled back on mismatch. -/
def fetchAndApplyLayer (hash : List Nat → Str) (fuel : Nat) (root : List Str)
    (fs : FS) (digest : Str) (body : List Nat) (entries : List TarHeader) :
    FS × Option Str :=
  let d := normalizeDigest digest
  let fsApplied := applyLayer fuel root fs entries
  let sum := "sha256:".toList ++ hash body
  if sum ≠ d then
    (fsApplied, some ("digest mismatch: got ".toList ++ sum ++ " want ".toList ++ d))
  else (fsApplied, none)

/-! ## Cgroup controller (`internal/cgroup/cgroup.go`) -/

/-- The `memory.max` contents written by `SetupAndEnter`. -/
def memMaxValue (memBytes : Int) : String :=
  if memBytes ≤ 0 then "max" else toString memBytes

/-- The quota clamp in `SetupAndEnter`: `if quota < 1000 { quota = 1000 }`. -/
def clampQuota (q : Int) : Int :=
  if q < 1000 then 1000 else q

/-- The `cpu.max` contents written by `SetupAndEnter`
(`period = 100000`, `quota = period * cpuPct / 100` clamped to 1000,
`"max"` when the percentage is out of (0, 100)). -/
def cpuMaxValue (cpuPct : Int) : String :=
  if cpuPct ≤ 0 ∨ 100 ≤ cpuPct then "max"
  else toString (clampQuota (100000 * cpuPct / 100)) ++ " " ++ toString (100000 : Int)

/-- The ordered writes `SetupAndEnter` performs into the fresh cgroup
directory: `memory.max`, then `cpu.max`, then the joining write of the
current PID to `cgroup.procs`. -/
def SetupAndEnterWrites (memBytes cpuPct : Int) (pid : Nat) : List (String × String) :=
  [("memory.max", memMaxValue memBytes),
   ("cpu.max", cpuMaxValue cpuPct),
   ("cgroup.procs", toString pid)]

/-! ## Namespace launcher child phase (`internal/ns/ns.go`, `ChildMain`) -/

/-- The run configuration carried across the re-exec boundary
(`ns.Config` plus the workdir/env/limit fields its caller
`cmd/ccrun/main.go` sets). -/
structure RunConfig where
  hostname : String := ""
  rootfs : String := ""
  workdir : String := ""
  useUTS : Bool := false
  usePID : Bool := false
  useMNT : Bool := false
  useUSER : Bool := false
  memBytes : Int := 0
  cpuPct : Int := 0
  envOverrides : List String := []
  deriving DecidableEq, Repr

/-- An observable side-effect of the sentinel child. -/
inductive SideEffect where
  | sethostname (name : String)
  | chroot (path : String)
  | chdir (path : String)
  | bindMountRootRec
  | markRootPrivateRec
  | mountProc
  | cgroupCreate
  | cgroupWrite (file : String) (value : String)
  | execve (cmd : String) (args : List String) (env : List String)
  deriving DecidableEq, Repr

/-- Modelled from the spec (§4.7): the `rootfs` package is absent from
the sources; `EnterChroot` performs `chroot(path)` then `chdir("/")`. -/
def enterChrootEffects (p : String) : List SideEffect :=
  [SideEffect.chroot p, SideEffect.chdir "/"]

/-- The effects of `SetupAndEnter`: create the cgroup directory, then
perform its writes (limits, then the joining `cgroup.procs` write). -/
def cgroupSetupEffects (memBytes cpuPct : Int) (pid : Nat) : List SideEffect :=
  SideEffect.cgroupCreate ::
    (SetupAndEnterWrites memBytes cpuPct pid).map (fun w => SideEffect.cgroupWrite w.1 w.2)

/-- The final environment: host environment with the `-env` overrides
appended (spec §4.5 step 7 and §6: `--env` appends to the inherited
environment). -/
def buildEnv (hostEnv overrides : List String) : List String :=
  hostEnv ++ overrides

/-- The side-effect trace of the sentinel child (`ChildMain`), written in
the sequential style of the source: hostname, chroot, workdir, mount
privatisation (recursive self bind-mount then recursive private), fresh
`/proc`, cgroup setup, then `execve`.  Steps 1 (sethostname), 2
(chroot), 4 (bind + private), 5 (procfs) and 8 (exec) follow `ChildMain`
in `src/internal/ns/ns.go`; steps 3 (workdir), 6 (cgroup) and 7 (env
overrides) are modelled from the spec (§4.5 phase 2), the final `ns.go`
carrying them being absent from the sources (its caller
`cmd/ccrun/main.go` sets `Config.MemBytes`/`Config.CPUPct`). -/
def childTrace (cfg : RunConfig) (pid : Nat) (hostEnv : List String)
    (cmd : String) (args : List String) : List SideEffect :=
  let t : List SideEffect := []
  let t := if cfg.useUTS ∧ cfg.hostname ≠ "" then t ++ [SideEffect.sethostname cfg.hostname] else t
  let t := if cfg.rootfs ≠ "" then t ++ enterChrootEffects cfg.rootfs else t
  let t := if cfg.workdir ≠ "" then t ++ [SideEffect.chdir cfg.workdir] else t
  let t := if cfg.useMNT then t ++ [SideEffect.bindMountRootRec, SideEffect.markRootPrivateRec] else t
  let t := if cfg.usePID then t ++ [SideEffect.mountProc] else t
  let t := if 0 < cfg.memBytes ∨ 0 < cfg.cpuPct then t ++ cgroupSetupEffects cfg.memBytes cfg.cpuPct pid else t
  t ++ [SideEffect.execve cmd args (buildEnv hostEnv cfg.envOverrides)]

/-! ## Registry authentication (challenge-driven token flow) -/

/-- An HTTP request: URL plus optional bearer token. -/
structure HttpRequest where
  url : Str
  bearer : Option Str := none
  deriving DecidableEq, Repr

/-- An HTTP response: status code, response headers, body, and (for the
token endpoint) the `token` field of the decoded JSON body. -/
structure HttpResponse where
  status : Nat
  headers : List (Str × Str) := []
  body : Str := []
  token : Str := []
  deriving DecidableEq, Repr

/-- The registry and token endpoints, abstracted. -/
abbrev Server := HttpRequest → HttpResponse

/-- Association-list lookup with propositional key equality. -/
def lookupStr (l : List (Str × Str)) (key : Str) : Option Str :=
  match l with
  | [] => none
  | (k, v) :: rest => if k = key then some v else lookupStr rest key

/-- Strip one pair of surrounding double quotes. -/
def stripQuotes (s : Str) : Str :=
  if 2 ≤ s.length ∧ s.head? = some '\x22' ∧ s.getLast? = some '\x22' then
    (s.drop 1).dropLast
  else s

/-- Lower-case a string (ASCII keys). -/
def lowerStr (s : Str) : Str := s.map Char.toLower

/-- Modelled from the spec (§4.1): parsing of the `Www-Authenticate`
Bearer challenge — split on `,`, then on `=`, strip surrounding quotes,
keys case-insensitive (lower-cased here).  The challenge-driven HTTP
layer (`doGET` taking a repository) is absent from the sources; only its
caller `fetchBlobWithFallback` remains. -/
def parseChallengeParams (h : Str) : List (Str × Str) :=
  let rest := if "Bearer ".toList.isPrefixOf h then h.drop 7 else h
  (splitOnChar rest ',').filterMap (fun part =>
    match splitOnChar part '=' with
    | [] => none
    | [_] => none
    | k :: vs => some (lowerStr k, stripQuotes (List.intercalate "=".toList vs)))

/-- The token-endpoint URL: `realm?service=<service>&scope=<scope>`. -/
def tokenURL (realm service scope : Str) : Str :=
  realm ++ "?service=".toList ++ service ++ "&scope=".toList ++ scope

/-- The fallback scope `repository:<repo>:pull` used when the challenge
omits scope. -/
def fallbackScope (repo : Str) : Str :=
  "repository:".toList ++ repo ++ ":pull".toList

/-- Modelled from the spec (§4.1): the challenge-driven authenticated
GET.  An unauthenticated GET is issued first; on 401 the Bearer
challenge is parsed, the token endpoint queried (falling back to
`repository:<repo>:pull` when the challenge omits scope), empty tokens
rejected, and the original request retried exactly once with the bearer
token; a second 401 is fatal.  Returns the issued request sequence and
the outcome. -/
def authGET (server : Server) (repo : Str) (u : Str) :
    List HttpRequest × Except Str HttpResponse :=
  let r1 := server { url := u }
  if r1.status ≠ 401 then ([{ url := u }], Except.ok r1)
  else
    let params := parseChallengeParams ((lookupStr r1.headers "Www-Authenticate".toList).getD [])
    let realm := (lookupStr params "realm".toList).getD []
    let service := (lookupStr params "service".toList).getD []
    let scope := (lookupStr params "scope".toList).getD (fallbackScope repo)
    let tu := tokenURL realm service scope
    let token := (server { url := tu }).token
    if token = [] then ([{ url := u }, { url := tu }], Except.error "empty token".toList)
    else
      let r2 := server { url := u, bearer := some token }
      if r2.status = 401 then
        ([{ url := u }, { url := tu }, { url := u, bearer := some token }],
         Except.error "unauthorized after token retry".toList)
      else
        ([{ url := u }, { url := tu }, { url := u, bearer := some token }],
         Except.ok r2)

/-! ## Blob fetch (`fetchBlobWithFallback`, `src/unnamed/part_000`) -/

/-- A blob-endpoint response: status code, status text
(`resp.Status`, e.g. `"404 Not Found"`), body. -/
structure BlobResponse where
  statusCode : Nat
  statusText : Str := []
  body : Str := []
  deriving DecidableEq, Repr

/-- The blob endpoint, abstracted as URL to response. -/
abbrev BlobServer := Str → BlobResponse

/-- The blob URL `https://<registry>/v2/<repo>/blobs/<digest>`. -/
def blobURL (registry repo digest : Str) : Str :=
  "https://".toList ++ registry ++ "/v2/".toList ++ repo ++ "/blobs/".toList ++ digest

/-- The digest as `fetchBlobWithFallback` forces it: normalised, then
`sha256:`-prefixed if the normalisation left it bare. -/
def forcedDigest (digest : Str) : Str :=
  let d0 := normalizeDigest digest
  if ¬ "sha256:".toList.isPrefixOf d0 then "sha256:".toList ++ d0 else d0

/-- The function `fetchBlobWithFallback` from `src/unnamed/part_000`: normalise the
digest (forcing the `sha256:` prefix), GET the digest-prefixed blob URL
once, and on non-200 fail with the status text and quoted response body
(`fmt.Errorf("blob %s: %s, body=%q", ...)`; `%q` quoting is modelled as
plain surrounding quotes). -/
def fetchBlobWithFallback (server : BlobServer) (registry repo digest : Str) :
    Except Str Str :=
  let d := forcedDigest digest
  let u := blobURL registry repo d
  let resp := server u
  if resp.statusCode ≠ 200 then
    Except.error ("blob ".toList ++ d ++ ": ".toList ++ resp.statusText
      ++ ", body=".toList ++ ['\x22'] ++ resp.body ++ ['\x22'])
  else Except.ok resp.body

/-! ## Concrete servers and inputs used in closed checks -/

/-- A 64-hex digest for concrete checks. -/
def hexA : Str := List.replicate 64 'a'

/-- A write-file lookup with propositional key equality. -/
def lookupFile (l : List (String × String)) (key : String) : Option String :=
  match l with
  | [] => none
  | (k, v) :: rest => if k = key then some v else lookupFile rest key

/-- A blob endpoint where the `sha256:`-prefixed URL answers 404 but the
bare-hex URL answers 200 — the situation the fallback claim addresses. -/
def blobDemoServer : BlobServer := fun u =>
  if u = blobURL "reg.example".toList "library/alpine".toList ("sha256:".toList ++ hexA) then
    { statusCode := 404, statusText := "404 Not Found".toList, body := "nf".toList }
  else if u = blobURL "reg.example".toList "library/alpine".toList hexA then
    { statusCode := 200, statusText := "200 OK".toList, body := "DATA".toList }
  else { statusCode := 500, statusText := "500 Internal Server Error".toList }

/-- A registry and token server for the auth-flow checks: it answers the
manifest URL with 401 and a quoted, mixed-case Bearer challenge without
scope, serves token `tok` at the token endpoint, and answers 200 only to
the bearer-authenticated retry. -/
def authDemoServer : Server := fun r =>
  if r.url = "https://reg.example/v2/library/alpine/manifests/latest".toList then
    match r.bearer with
    | none =>
      { status := 401,
        headers := [("Www-Authenticate".toList,
          "Bearer realm=\x22https://auth.example/token\x22,Service=\x22reg.example\x22".toList)] }
    | some t =>
      if t = "tok".toList then { status := 200, body := "MANIFEST".toList }
      else { status := 401 }
  else if r.url = "https://auth.example/token?service=reg.example&scope=repository:library/alpine:pull".toList then
    { status := 200, token := "tok".toList }
  else { status := 404 }

/-! ## Helper lemmas -/

/-- A list is a Boolean prefix of itself followed by anything. -/
theorem isPrefixOf_append_self {α : Type} [BEq α] [LawfulBEq α] (p t : List α) :
    p.isPrefixOf (p ++ t) = true := by
  induction p with
  | nil => simp [List.isPrefixOf]
  | cons a as ih => simp [List.isPrefixOf, ih]

/-- Go `strings.TrimPrefix` removes an actual prefix. -/
theorem trimPre_append (p t : Str) : trimPre p (p ++ t) = t := by
  unfold trimPre
  rw [if_pos (isPrefixOf_append_self p t), List.drop_left]

/-! ## Claim theorems -/

/-- C9: `ParseImageRef` is total in its error result — for every input
string it returns a nil error, so no image reference is rejected as
malformed at parse time. -/
theorem parseImageRef_total_ok (s : Str) : (ParseImageRef s).2 = none := rfl

/-- C8 counterexample: on the input `":v1"` the claim's tag (the portion
after the last `:`, which exists and contains no `/`) is `"v1"`, but
`ParseImageRef` — which additionally requires the last `:` to sit at a
positive index — yields tag `"latest"`. -/
theorem parseImageRef_leading_colon_counterexample :
    specTagClaim ":v1".toList = "v1".toList
    ∧ (ParseImageRef ":v1".toList).1.tag = "latest".toList
    ∧ "v1".toList ≠ "latest".toList := by decide

/-- C8 (amended): for every input string, `ParseImageRef` yields registry
`registry-1.docker.io`; the tag is the portion after the last `:` unless
there is no `:`, the last `:` is the first character, or that portion
contains a `/`, in which case the tag is `latest`; the name is prefixed
with `library/` exactly when it contains no `/`; and the resulting
repository path is never empty. -/
theorem parseImageRef_amended (s : Str) :
    ParseImageRef s
      = ({ registry := "registry-1.docker.io".toList,
           repo := specRepo s, tag := specTagAmended s }, none)
    ∧ specRepo s ≠ [] := by
  constructor
  · rfl
  · intro h
    by_cases hc : containsChar (specRawName s) '/'
    · rw [specRepo, if_neg (by simpa using hc)] at h
      rw [h] at hc
      exact absurd hc (by decide)
    · rw [specRepo, if_pos (by simpa using hc)] at h
      exact absurd h (by simp)

/-- C7: the value `SetupAndEnter` writes to `cpu.max` is the literal
`"max"` when `cpu_percent ≤ 0` or `≥ 100`, and otherwise
`"<quota> 100000"` with `quota = 100000 * cpu_percent / 100` clamped to
a minimum of 1000; in particular 50 ↦ `"50000 100000"`, 0 and 100 ↦
`"max"`, and 1 yields a quota ≥ 1000. -/
theorem setupAndEnter_cpuMax_encoding (memBytes : Int) (pid : Nat) (p : Int) :
    lookupFile (SetupAndEnterWrites memBytes p pid) "cpu.max" = some (cpuMaxValue p)
    ∧ ((p ≤ 0 ∨ 100 ≤ p) → cpuMaxValue p = "max")
    ∧ (0 < p → p < 100 →
        cpuMaxValue p
          = toString (clampQuota (100000 * p / 100)) ++ " " ++ toString (100000 : Int)
        ∧ 1000 ≤ clampQuota (100000 * p / 100))
    ∧ cpuMaxValue 50 = "50000 100000"
    ∧ cpuMaxValue 0 = "max"
    ∧ cpuMaxValue 100 = "max"
    ∧ cpuMaxValue 1 = "1000 100000" := by
  refine ⟨rfl, ?_, ?_, by decide, by decide, by decide, by decide⟩
  · intro h
    rw [cpuMaxValue, if_pos (by omega)]
  · intro h1 h2
    rw [cpuMaxValue, if_neg (by omega)]
    refine ⟨rfl, ?_⟩
    rw [clampQuota]
    split <;> omega

/-- C7 witness: the hypotheses of `setupAndEnter_cpuMax_encoding` hold
at `cpu_percent = -5` (unlimited) and `cpu_percent = 25` (quota path). -/
theorem setupAndEnter_cpuMax_encoding_witness :
    cpuMaxValue (-5) = "max"
    ∧ (cpuMaxValue 25
         = toString (clampQuota (100000 * 25 / 100)) ++ " " ++ toString (100000 : Int)
       ∧ 1000 ≤ clampQuota (100000 * 25 / 100)) :=
  ⟨(setupAndEnter_cpuMax_encoding 0 1 (-5)).2.1 (Or.inl (by decide)),
   (setupAndEnter_cpuMax_encoding 0 1 25).2.2.1 (by decide) (by decide)⟩

/-- C2: when the streamed bytes hash to a value different from the
declared digest, `fetchAndApplyLayer` returns the digest-mismatch error,
and only after the whole tar stream has been applied: the final
filesystem is the full fold of the layer's entries, with no rollback. -/
theorem fetchAndApplyLayer_digest_mismatch (hash : List Nat → Str) (fuel : Nat)
    (root : List Str) (fs : FS) (digest : Str) (body : List Nat)
    (entries : List TarHeader)
    (h : "sha256:".toList ++ hash body ≠ normalizeDigest digest) :
    fetchAndApplyLayer hash fuel root fs digest body entries
      = (applyLayer fuel root fs entries,
         some ("digest mismatch: got ".toList ++ ("sha256:".toList ++ hash body)
           ++ " want ".toList ++ normalizeDigest digest)) := by
  rw [fetchAndApplyLayer]
  simp only [if_pos h]

/-- C2 witness: a concrete mismatching layer is reported after (empty)
application. -/
theorem fetchAndApplyLayer_digest_mismatch_witness :
    fetchAndApplyLayer (fun _ => "00".toList) 4 [] [] "sha256:ff".toList [] []
      = ([], some "digest mismatch: got sha256:00 want sha256:ff".toList) := by
  rw [fetchAndApplyLayer_digest_mismatch (fun _ => "00".toList) 4 [] []
    "sha256:ff".toList [] [] (by decide)]
  decide

/-- C5 counterexample: a blob endpoint answers 404 on the
`sha256:`-prefixed URL while answering 200 on the bare-hex URL, yet
`fetchBlobWithFallback` fails without retrying the bare-hex URL — the
claimed fallback does not exist. -/
theorem fetchBlobWithFallback_no_bare_retry :
    (blobDemoServer (blobURL "reg.example".toList "library/alpine".toList hexA)).statusCode = 200
    ∧ fetchBlobWithFallback blobDemoServer "reg.example".toList "library/alpine".toList hexA
        = Except.error ("blob ".toList ++ ("sha256:".toList ++ hexA) ++ ": ".toList
            ++ "404 Not Found".toList ++ ", body=".toList ++ ['\x22'] ++ "nf".toList ++ ['\x22']) := by
  constructor
  · decide
  · rfl

/-- C5 (amended): the blob fetch performs a single GET on the
digest-prefixed URL; any non-200 response is fatal and the failure
reports the status text plus the response body. -/
theorem fetchBlobWithFallback_single_attempt (server : BlobServer)
    (registry repo digest : Str)
    (h : (server (blobURL registry repo (forcedDigest digest))).statusCode ≠ 200) :
    fetchBlobWithFallback server registry repo digest
      = Except.error ("blob ".toList ++ forcedDigest digest ++ ": ".toList
          ++ (server (blobURL registry repo (forcedDigest digest))).statusText
          ++ ", body=".toList ++ ['\x22']
          ++ (server (blobURL registry repo (forcedDigest digest))).body ++ ['\x22']) := by
  rw [fetchBlobWithFallback]
  simp only [if_pos h]

/-- C1: a layer whose first entry creates the symlink `etc → /` and whose
second entry is the regular file `etc/passwd` makes `applyTarEntry`
create `/passwd` — a file outside the destination root `/r`.  The
lexical sanitisation of entry names does not prevent symlink traversal,
so the claimed safety property fails on the code. -/
theorem applyLayer_symlink_traversal_escape :
    applyLayer 8 ["r".toList] [(["r".toList], Node.dir)]
        [ { name := "etc".toList, typeflag := TarType.symlink, linkname := "/".toList },
          { name := "etc/passwd".toList, typeflag := TarType.reg } ]
      = [(["r".toList], Node.dir),
         (["r".toList, "etc".toList], Node.symlink "/".toList),
         (["passwd".toList], Node.file)]
    ∧ ["r".toList].isPrefixOf ["passwd".toList] = false := by
  constructor
  · rfl
  · decide

/-- C6 counterexample: a layer whose stream holds the whiteout `.wh.foo`
followed by a regular entry `foo` leaves the file `foo` on disk under
the destination root after the whole layer is applied — whiteouts take
effect at their stream position, not before the other entries of the
layer. -/
theorem whiteout_then_readd_counterexample :
    whMark.isPrefixOf (baseOf (sanitize ".wh.foo".toList)) = true
    ∧ fsLookup
        (applyLayer 8 ["r".toList] [(["r".toList], Node.dir)]
          [ { name := ".wh.foo".toList, typeflag := TarType.reg },
            { name := "foo".toList, typeflag := TarType.reg } ])
        ["r".toList, "foo".toList]
      = some Node.file := by
  constructor
  · decide
  · rfl

/-- C6 (amended): a whiteout entry `.wh.X` under directory `D` takes
effect at its position in the tar stream: at that moment every path
under `<root>/D/X` is removed, whatever the prior state was, and
nothing is materialised for the whiteout itself; a later entry of the
same layer may recreate `X`.  (Hypotheses: the entry sanitises to
`D/.wh.X`, the deletion path is already clean, and no symlink redirects
it.) -/
theorem applyTarEntry_whiteout_clears (fuel : Nat) (root d : List Str) (x : Str)
    (fs : FS) (e : TarHeader)
    (hname : sanitize e.name = d ++ [whMark ++ x])
    (hclean : cleanComponents (root ++ d ++ [x]) = root ++ d ++ [x])
    (hres : resolveFrom fs fuel [] (root ++ d) = root ++ d) :
    applyTarEntry fuel root fs e = fsRemoveTree fs (root ++ d ++ [x])
    ∧ ∀ q n, (q, n) ∈ applyTarEntry fuel root fs e → ¬ ((root ++ d ++ [x]) <+: q) := by
  have hbase : baseOf (d ++ [whMark ++ x]) = whMark ++ x := by simp [baseOf]
  have hmain : applyTarEntry fuel root fs e = fsRemoveTree fs (root ++ d ++ [x]) := by
    simp only [applyTarEntry, hname, hbase, isPrefixOf_append_self, List.dropLast_concat,
      trimPre_append, if_true]
    rw [hclean]
    simp only [resolveNoFollowLast, List.getLast?_concat, List.dropLast_concat, hres]
  refine ⟨hmain, ?_⟩
  intro q n hq
  rw [hmain, fsRemoveTree] at hq
  have h2 := (List.mem_filter.mp hq).2
  simpa using h2

/-- C6 witness: the amended whiteout behaviour at a concrete state where
`/r/foo` exists. -/
theorem applyTarEntry_whiteout_clears_witness :
    applyTarEntry 4 ["r".toList]
        [(["r".toList], Node.dir), (["r".toList, "foo".toList], Node.file)]
        { name := ".wh.foo".toList, typeflag := TarType.reg }
      = fsRemoveTree [(["r".toList], Node.dir), (["r".toList, "foo".toList], Node.file)]
          (["r".toList] ++ [] ++ ["foo".toList])
    ∧ ∀ q n, (q, n) ∈ applyTarEntry 4 ["r".toList]
        [(["r".toList], Node.dir), (["r".toList, "foo".toList], Node.file)]
        { name := ".wh.foo".toList, typeflag := TarType.reg }
      → ¬ ((["r".toList] ++ [] ++ ["foo".toList]) <+: q) :=
  applyTarEntry_whiteout_clears 4 ["r".toList] [] "foo".toList
    [(["r".toList], Node.dir), (["r".toList, "foo".toList], Node.file)]
    { name := ".wh.foo".toList, typeflag := TarType.reg }
    (by decide) (by decide) (by decide)

/-- C10: for hardlink entries `applyTarEntry` computes the link source by
joining the destination root with the raw linkname — `filepath.Join`
resolves `..` against the root rather than clamping it, unlike the
sanitisation applied to entry names — so a linkname with `..`
components yields a link source outside the destination root. -/
theorem hardlink_linkname_unsanitised :
    (∀ (fuel : Nat) (root : List Str) (fs : FS) (hdr : TarHeader),
        hdr.typeflag = TarType.link →
        whMark.isPrefixOf (baseOf (sanitize hdr.name)) = false →
        applyTarEntry fuel root fs hdr
          = fsSet (fsRemoveTree fs (resolveNoFollowLast fuel fs (root ++ sanitize hdr.name)))
              (resolveNoFollowLast fuel fs (root ++ sanitize hdr.name))
              (Node.hardlink (resolveFrom fs fuel [] (hardlinkSource root hdr.linkname))))
    ∧ hardlinkSource ["r".toList] "../secret".toList = ["secret".toList]
    ∧ "..".toList ∈ splitOnChar "../secret".toList '/'
    ∧ ["r".toList].isPrefixOf (hardlinkSource ["r".toList] "../secret".toList) = false
    ∧ hardlinkSource ["r".toList] "../secret".toList ≠ ["r".toList] ++ sanitize "../secret".toList := by
  refine ⟨?_, by decide, by decide, by decide, by decide⟩
  intro fuel root fs hdr h1 h2
  have hne : baseOf (sanitize hdr.name) ≠ opqBase := by
    intro heq
    rw [heq] at h2
    exact absurd h2 (by decide)
  obtain ⟨nm, tf, ln⟩ := hdr
  simp only at h1 h2 hne
  subst h1
  simp only [applyTarEntry]
  rw [if_neg (by rw [h2]; simp), if_neg hne]

/-- C10 witness: the hardlink equation at a concrete entry whose
linkname climbs out of the root. -/
theorem hardlink_linkname_unsanitised_witness :
    applyTarEntry 4 ["r".toList] []
        { name := "lnk".toList, typeflag := TarType.link, linkname := "../secret".toList }
      = fsSet (fsRemoveTree []
            (resolveNoFollowLast 4 [] (["r".toList] ++ sanitize "lnk".toList)))
          (resolveNoFollowLast 4 [] (["r".toList] ++ sanitize "lnk".toList))
          (Node.hardlink (resolveFrom [] 4 []
            (hardlinkSource ["r".toList] "../secret".toList))) :=
  hardlink_linkname_unsanitised.1 4 ["r".toList] []
    { name := "lnk".toList, typeflag := TarType.link, linkname := "../secret".toList }
    rfl (by decide)

/-- C3: in the sentinel child, side-effects happen in exactly the claimed
order — hostname (if UTS and non-empty), chroot + chdir `/` (if rootfs),
chdir workdir (if set), recursive self bind-mount of `/` then recursive
private marking (if mount namespace), fresh procfs (if PID namespace),
cgroup creation/limit writes/join (if limits), and finally `execve` with
the host environment extended by the `-env` overrides. -/
theorem childTrace_effect_order (cfg : RunConfig) (pid : Nat) (hostEnv : List String)
    (cmd : String) (args : List String) :
    childTrace cfg pid hostEnv cmd args
      = (if cfg.useUTS ∧ cfg.hostname ≠ "" then [SideEffect.sethostname cfg.hostname] else [])
        ++ (if cfg.rootfs ≠ "" then [SideEffect.chroot cfg.rootfs, SideEffect.chdir "/"] else [])
        ++ (if cfg.workdir ≠ "" then [SideEffect.chdir cfg.workdir] else [])
        ++ (if cfg.useMNT then [SideEffect.bindMountRootRec, SideEffect.markRootPrivateRec] else [])
        ++ (if cfg.usePID then [SideEffect.mountProc] else [])
        ++ (if 0 < cfg.memBytes ∨ 0 < cfg.cpuPct then
              [SideEffect.cgroupCreate,
               SideEffect.cgroupWrite "memory.max" (memMaxValue cfg.memBytes),
               SideEffect.cgroupWrite "cpu.max" (cpuMaxValue cfg.cpuPct),
               SideEffect.cgroupWrite "cgroup.procs" (toString pid)]
            else [])
        ++ [SideEffect.execve cmd args (hostEnv ++ cfg.envOverrides)] := by
  simp only [childTrace, enterChrootEffects, cgroupSetupEffects, SetupAndEnterWrites,
    buildEnv, List.map]
  split_ifs <;> simp

/-- C4: registry authentication is challenge-driven — the first GET is
unauthenticated; a non-401 response is returned as-is; on 401 the
Bearer challenge is parsed (split on `,` then `=`, quotes stripped, keys
case-insensitive), the token endpoint
`realm?service=<service>&scope=<scope>` is queried with the
`repository:<repo>:pull` fallback scope, empty tokens are rejected, the
original request is retried exactly once with the bearer token, and a
second 401 is fatal. -/
theorem authGET_challenge_flow (server : Server) (repo u : Str) :
    ((server { url := u }).status ≠ 401 →
      authGET server repo u = ([{ url := u }], Except.ok (server { url := u })))
    ∧ ((server { url := u }).status = 401 →
        (let params := parseChallengeParams
            ((lookupStr (server { url := u }).headers "Www-Authenticate".toList).getD [])
         let tu := tokenURL ((lookupStr params "realm".toList).getD [])
             ((lookupStr params "service".toList).getD [])
             ((lookupStr params "scope".toList).getD (fallbackScope repo))
         let token := (server { url := tu }).token
         (token = [] →
            authGET server repo u
              = ([{ url := u }, { url := tu }], Except.error "empty token".toList))
         ∧ (token ≠ [] → (server { url := u, bearer := some token }).status = 401 →
              authGET server repo u
                = ([{ url := u }, { url := tu }, { url := u, bearer := some token }],
                   Except.error "unauthorized after token retry".toList))
         ∧ (token ≠ [] → (server { url := u, bearer := some token }).status ≠ 401 →
              authGET server repo u
                = ([{ url := u }, { url := tu }, { url := u, bearer := some token }],
                   Except.ok (server { url := u, bearer := some token })))))
    ∧ parseChallengeParams
        "Bearer realm=\x22https://auth.example/token\x22,Service=\x22reg.example\x22".toList
      = [("realm".toList, "https://auth.example/token".toList),
         ("service".toList, "reg.example".toList)] := by
  refine ⟨?_, ?_, by decide⟩
  · intro h
    simp only [authGET]
    rw [if_pos h]
  · intro h
    simp only [authGET]
    rw [if_neg (fun hne => hne h)]
    refine ⟨fun ht => ?_, fun ht h2 => ?_, fun ht h2 => ?_⟩
    · rw [if_pos ht]
    · rw [if_neg ht, if_pos h2]
    · rw [if_neg ht, if_neg h2]

/-- C4 witness: the full 401 → token → retry → 200 flow at a concrete
server whose challenge is quoted, mixed-case and scope-less. -/
theorem authGET_challenge_flow_witness :
    authGET authDemoServer "library/alpine".toList
        "https://reg.example/v2/library/alpine/manifests/latest".toList
      = ([{ url := "https://reg.example/v2/library/alpine/manifests/latest".toList },
          { url := "https://auth.example/token?service=reg.example&scope=repository:library/alpine:pull".toList },
          { url := "https://reg.example/v2/library/alpine/manifests/latest".toList,
            bearer := some "tok".toList }],
         Except.ok { status := 200, body := "MANIFEST".toList }) := by
  have h := (authGET_challenge_flow authDemoServer "library/alpine".toList
    "https://reg.example/v2/library/alpine/manifests/latest".toList).2.1 (by decide)
  rw [h.2.2 (by decide) (by decide)]
  rfl

/-- C5 witness: the single-attempt behaviour at the concrete 404 server. -/
theorem fetchBlobWithFallback_single_attempt_witness :
    fetchBlobWithFallback blobDemoServer "reg.example".toList "library/alpine".toList
        ("sha256:".toList ++ hexA)
      = Except.error ("blob ".toList ++ forcedDigest ("sha256:".toList ++ hexA) ++ ": ".toList
          ++ (blobDemoServer (blobURL "reg.example".toList "library/alpine".toList
                (forcedDigest ("sha256:".toList ++ hexA)))).statusText
          ++ ", body=".toList ++ ['\x22']
          ++ (blobDemoServer (blobURL "reg.example".toList "library/alpine".toList
                (forcedDigest ("sha256:".toList ++ hexA)))).body ++ ['\x22']) :=
  fetchBlobWithFallback_single_attempt blobDemoServer "reg.example".toList
    "library/alpine".toList ("sha256:".toList ++ hexA) (by decide)

end CCRun
